import Mathlib

/-!
Verification development for the Playlist Transfer extension's background
service worker (`src/background.js`).  The definitions below are a shallow
embedding of the state and operations of that file: the mutable
`transferState` object, the message handlers `handleStartTransfer` and
`handleCancelTransfer`, the transfer pipeline `performTransfer` /
`searchTracksOnPlatform` / `addTracksToPlaylist`, the history writer
`saveTransferHistory`, and the retry helper `retryOperation`.  Network and
storage effects are represented by explicit oracle parameters; JavaScript
numbers used for progress percentages are modelled as rationals.
-/

/-- A track as extracted from a source playlist (`name`, `artists`, `album`,
1-based `position`). -/
structure Track where
  name : String
  artists : List String
  album : String
  position : Nat
deriving DecidableEq

/-- The playlist metadata carried in a transfer request and returned by
playlist creation (`id`, `name`, `description`, `trackCount`). -/
structure PlaylistRef where
  id : String
  name : String
  description : String
  trackCount : Nat
deriving DecidableEq

/-- Transfer options stored in settings (`conflictResolution`, `batchSize`,
`retryAttempts`). -/
structure TransferOptions where
  conflictResolution : String
  batchSize : Nat
  retryAttempts : Nat
deriving DecidableEq

/-- The `transferData` payload of a `startTransfer` message. -/
structure TransferData where
  sourcePlaylist : PlaylistRef
  sourcePlatform : String
  targetPlatform : String
  options : TransferOptions
deriving DecidableEq

/-- The mutable global `transferState` object of `background.js`:
`isTransferring`, `currentTransfer`, `progress`, `errors`, plus the
`message` field written by `updateProgress` (absent initially). -/
structure TransferState where
  isTransferring : Bool
  currentTransfer : Option TransferData
  progress : ℚ
  errors : List String
  message : Option String
deriving DecidableEq

/-- The initial `transferState` value declared at the top of
`background.js`. -/
def initialTransferState : TransferState :=
  { isTransferring := false
    currentTransfer := none
    progress := 0
    errors := []
    message := none }

/-- A `sendResponse` payload: either `{ success: true, message }` or
`{ error }`. -/
inductive Response where
  | success (message : String)
  | error (message : String)
deriving DecidableEq

/-- `handleStartTransfer(transferData, sendResponse)`.  The `try` block
throws `'Transfer already in progress'` when `transferState.isTransferring`
is set; the `catch` block then runs `transferState.isTransferring = false`
and responds with the error.  Otherwise the four state fields are set, the
success response is sent and `performTransfer` is entered.  The returned
`Bool` records whether `performTransfer(transferData)` was reached. -/
def handleStartTransfer (transferData : TransferData) (s : TransferState) :
    TransferState × Response × Bool :=
  if s.isTransferring then
    ({ s with isTransferring := false },
      Response.error ("Transfer already in progress"), false)
  else
    ({ s with
        isTransferring := true
        currentTransfer := some transferData
        progress := 0
        errors := [] },
      Response.success ("Transfer started"), true)

/-- `handleCancelTransfer(sendResponse)`: unconditionally resets
`isTransferring`, `currentTransfer` and `progress` and responds success. -/
def handleCancelTransfer (s : TransferState) : TransferState × Response :=
  ({ s with isTransferring := false, currentTransfer := none, progress := 0 },
    Response.success ("Transfer cancelled"))

/-- `saveTransferHistory(transferRecord)` on a stored history list:
`history.unshift(record)` then `if (history.length > 50) history.splice(50)`. -/
def saveTransferHistory {α : Type} (record : α) (history : List α) : List α :=
  let h := record :: history
  if 50 < h.length then h.take 50 else h

/-- Folding `saveTransferHistory` over a chronologically ordered list of
records (`records.head` appended first). -/
def appendAll {α : Type} (records : List α) (history : List α) : List α :=
  records.foldl (fun h r => saveTransferHistory r h) history

/-- One step of `retryOperation`'s `for` loop.  `retryGo op attempt r`
models the iterations with `r` loop indices remaining (`attempt` up to
`attempt + r - 1`, i.e. `attempt == maxRetries` exactly when `r = 1`).
`op attempt` is the outcome of invoking the wrapped operation on the given
attempt; the result pairs the value returned (or error thrown) by
`retryOperation` with the number of invocations performed, `Except.ok none`
standing for the `undefined` returned when the loop body never runs. -/
def retryGo {E A : Type} (op : Nat → Except E A) :
    Nat → Nat → Except E (Option A) × Nat
  | _, 0 => (Except.ok none, 0)
  | attempt, r + 1 =>
    match op attempt with
    | Except.ok a => (Except.ok (some a), 1)
    | Except.error e =>
      if r = 0 then (Except.error e, 1)
      else
        let p := retryGo op (attempt + 1) r
        (p.1, p.2 + 1)

/-- `retryOperation(operation, maxRetries)`: the loop
`for (let attempt = 1; attempt <= maxRetries; attempt++)` returning the
operation's value on success, rethrowing the error when
`attempt === maxRetries`, and otherwise sleeping and retrying. -/
def retryOperation {E A : Type} (op : Nat → Except E A) (maxRetries : Nat) :
    Except E (Option A) × Nat :=
  retryGo op 1 maxRetries

/-- The outcome of one `searchTrack` call on the target platform: a thrown
error, or a found / not-found result. -/
abbrev SearchOutcome := Except String (Option Track)

/-- The result object pushed by `searchTracksOnPlatform` for one source
track: `{ original, found: !!searchResult, match: searchResult }` on a
successful call, `{ original, found: false, error: error.message }` when
`searchTrack` throws. -/
structure MatchResult where
  original : Track
  found : Bool
  match' : Option Track
  error : Option String
deriving DecidableEq

/-- Builds the `MatchResult` for one iteration of the
`searchTracksOnPlatform` loop from the outcome of its `searchTrack` call. -/
def mkMatchResult (t : Track) (outcome : SearchOutcome) : MatchResult :=
  match outcome with
  | Except.ok r => { original := t, found := r.isSome, match' := r, error := none }
  | Except.error e => { original := t, found := false, match' := none, error := some e }

/-- Writes `transferState.progress` and `transferState.message`
(`updateProgress(progress, message)`). -/
def updProg (s : TransferState) (p : ℚ) (m : String) : TransferState :=
  { s with progress := p, message := some m }

/-- The loop body of `searchTracksOnPlatform`, threading the index `i` and
the `transferState` updates `updateProgress(30 + (i / tracks.length) * 30,
...)` performed after each push.  `n` is `tracks.length` as a rational. -/
def searchLoopGo (srch : Track → SearchOutcome) (n : ℚ) :
    List Track → Nat → TransferState → TransferState × List MatchResult
  | [], _, s => (s, [])
  | t :: ts, i, s =>
    let r := mkMatchResult t (srch t)
    let s1 := updProg s (30 + ((i : ℚ) / n) * 30) ("Searching: " ++ t.name)
    let p := searchLoopGo srch n ts (i + 1) s1
    (p.1, r :: p.2)

/-- `searchTracksOnPlatform(platform, tracks)`: iterates the tracks in
order, builds one `MatchResult` per track (a thrown `searchTrack` error is
caught and recorded, never aborting the loop) and updates progress after
each iteration. -/
def searchTracksOnPlatform (srch : Track → SearchOutcome) (tracks : List Track)
    (s : TransferState) : TransferState × List MatchResult :=
  searchLoopGo srch (tracks.length : ℚ) tracks 0 s

/-- The per-track results of the matching phase, position by position. -/
def matchResults (srch : Track → SearchOutcome) (tracks : List Track) :
    List MatchResult :=
  tracks.map (fun t => mkMatchResult t (srch t))

/-- The filter applied by `addTracksToPlaylist`:
`tracks.filter(t => t.found && t.match)`. -/
def validTracks (tracks : List MatchResult) : List MatchResult :=
  tracks.filter (fun t => t.found && t.match'.isSome)

/-- `addTracksToPlaylist(platform, playlistId, tracks)`: filters the match
results down to the found ones and hands exactly that list to the
platform-specific insertion function (modelled by the `adder` oracle). -/
def addTracksToPlaylist (adder : String → List MatchResult → Except String Unit)
    (playlistId : String) (tracks : List MatchResult) : Except String Unit :=
  adder playlistId (validTracks tracks)

/-- Whether a `searchTrack` outcome is a successful call returning a track. -/
def matchFound : SearchOutcome → Bool
  | Except.ok (some _) => true
  | _ => false

/-- The record written by `performTransfer` to the transfer history. -/
structure TransferRecord where
  sourcePlaylist : PlaylistRef
  sourcePlatform : String
  targetPlatform : String
  targetPlaylist : PlaylistRef
  transferredTracks : Nat
  totalTracks : Nat
  timestamp : Nat
deriving DecidableEq

/-- The external calls made by `performTransfer`, represented as oracles:
`getPlaylistTracks(platform, id)`, the target platform's
`searchTrack`, `createPlaylist(platform, { name, description })` and the
platform-specific insertion function invoked by `addTracksToPlaylist`.
Each returns `Except.error` when the corresponding `await` throws. -/
structure Oracles where
  fetchTracks : String → String → Except String (List Track)
  searchTrack : Track → SearchOutcome
  createPlaylist : String → String → Except String PlaylistRef
  addTracks : String → List MatchResult → Except String Unit

/-- The `catch` block of `performTransfer`:
`transferState.errors.push(error.message)` followed by
`updateProgress(transferState.progress, 'Transfer failed: ...')` (the
progress value is left unchanged). -/
def catchErr (s : TransferState) (e : String) : TransferState :=
  { s with errors := s.errors ++ [e], message := some ("Transfer failed: " ++ e) }

/-- The `finally` block of `performTransfer`:
`transferState.isTransferring = false`. -/
def finallyClear (s : TransferState) : TransferState :=
  { s with isTransferring := false }

/-- `performTransfer(transferData)` as a function of the oracle outcomes,
the current `transferState` and the stored `transferHistory`; `now` stands
for `Date.now()`.  Returns the `transferState` and history after the
function (including its `catch`/`finally` blocks) has run. -/
def performTransfer (o : Oracles) (d : TransferData) (now : Nat)
    (s : TransferState) (hist : List TransferRecord) :
    TransferState × List TransferRecord :=
  let s1 := updProg s 10 ("Fetching source playlist tracks...")
  match o.fetchTracks d.sourcePlatform d.sourcePlaylist.id with
  | Except.error e => (finallyClear (catchErr s1 e), hist)
  | Except.ok sourceTracks =>
    let s2 := updProg s1 30 ("Searching for tracks on target platform...")
    let p := searchTracksOnPlatform o.searchTrack sourceTracks s2
    let s4 := updProg p.1 60 ("Creating target playlist...")
    match o.createPlaylist d.sourcePlaylist.name d.sourcePlaylist.description with
    | Except.error e => (finallyClear (catchErr s4 e), hist)
    | Except.ok targetPlaylist =>
      let s5 := updProg s4 80 ("Adding tracks to target playlist...")
      match addTracksToPlaylist o.addTracks targetPlaylist.id p.2 with
      | Except.error e => (finallyClear (catchErr s5 e), hist)
      | Except.ok _ =>
        let hist2 := saveTransferHistory
          { sourcePlaylist := d.sourcePlaylist
            sourcePlatform := d.sourcePlatform
            targetPlatform := d.targetPlatform
            targetPlaylist := targetPlaylist
            transferredTracks := (p.2.filter (fun t => t.found)).length
            totalTracks := sourceTracks.length
            timestamp := now } hist
        let s6 := updProg s5 100 ("Transfer completed successfully!")
        (finallyClear s6, hist2)

/-- The number of `found` matches among the matching-phase results. -/
def foundCount (srch : Track → SearchOutcome) (tracks : List Track) : Nat :=
  ((matchResults srch tracks).filter (fun r => r.found)).length

/-- The atomic steps `performTransfer` takes against the global
`transferState`, the stored history and the network: used to study how a
concurrently delivered `cancelTransfer` message interleaves with a running
transfer.  Network calls (`fetchTracks`, `search`, `createPlaylist`,
`addTracksCall`) are the suspension points of the async function; only
`updateProgress`, `writeHistory` and the `finally` block
(`clearTransferring`) touch engine-visible state. -/
inductive TAction where
  | updateProgress (p : ℚ) (m : String)
  | fetchTracks
  | search (i : Nat)
  | createPlaylist
  | addTracksCall
  | writeHistory
  | clearTransferring
deriving DecidableEq

/-- The steps of the `searchTracksOnPlatform` loop: for index `i`, the
`searchTrack` call followed by `updateProgress(30 + (i / tracks.length) *
30, 'Searching: ...')`.  The loop condition never consults
`transferState`, so the steps are fixed by the track list alone. -/
def matchLoopTrace (n : ℚ) : List Track → Nat → List TAction
  | [], _ => []
  | t :: ts, i =>
    TAction.search i ::
      TAction.updateProgress (30 + ((i : ℚ) / n) * 30) ("Searching: " ++ t.name) ::
        matchLoopTrace n ts (i + 1)

/-- The complete sequence of steps of a `performTransfer` run in which
every network call succeeds and the fetched source track list is `tracks`.
Neither `performTransfer` nor any function it calls reads
`transferState.isTransferring` (or any cancellation flag), so this
sequence does not depend on the engine state the steps are applied to. -/
def performTransferTrace (tracks : List Track) : List TAction :=
  [TAction.updateProgress 10 ("Fetching source playlist tracks..."),
   TAction.fetchTracks,
   TAction.updateProgress 30 ("Searching for tracks on target platform...")]
  ++ matchLoopTrace (tracks.length : ℚ) tracks 0
  ++ [TAction.updateProgress 60 ("Creating target playlist..."),
      TAction.createPlaylist,
      TAction.updateProgress 80 ("Adding tracks to target playlist..."),
      TAction.addTracksCall,
      TAction.writeHistory,
      TAction.updateProgress 100 ("Transfer completed successfully!"),
      TAction.clearTransferring]

/-- Engine-visible world for the interleaving model: the `transferState`
object plus the number of records appended to the stored history. -/
structure CWorld where
  state : TransferState
  histWrites : Nat
deriving DecidableEq

/-- Effect of one `performTransfer` step on the world. -/
def applyAction : TAction → CWorld → CWorld
  | TAction.updateProgress p m, w =>
    { w with state := updProg w.state p m }
  | TAction.writeHistory, w => { w with histWrites := w.histWrites + 1 }
  | TAction.clearTransferring, w =>
    { w with state := finallyClear w.state }
  | _, w => w

/-- Runs a sequence of `performTransfer` steps. -/
def applyAll (l : List TAction) (w : CWorld) : CWorld :=
  l.foldl (fun w a => applyAction a w) w

/-- Effect of `handleCancelTransfer` on the world: it rewrites
`transferState` and leaves the stored history alone. -/
def cancelWorld (w : CWorld) : CWorld :=
  { w with state := (handleCancelTransfer w.state).1 }

/-- A `performTransfer` run with a `cancelTransfer` message handled after
the first `k` steps.  Because no step of the run consults the state
`handleCancelTransfer` wrote, the remaining steps are exactly the ones the
uncancelled run would take. -/
def runWithCancelAt (tracks : List Track) (k : Nat) (w : CWorld) : CWorld :=
  applyAll ((performTransferTrace tracks).drop k)
    (cancelWorld (applyAll ((performTransferTrace tracks).take k) w))

/-- Number of matching iterations (`searchTrack` calls) begun in a step
sequence. -/
def countSearch (l : List TAction) : Nat :=
  l.countP (fun a => match a with | TAction.search _ => true | _ => false)

/-- Every step of a `performTransfer` run up to (and including) the
`addTracksToPlaylist` call: the prefix of the trace before the history
write, the final progress update and the `finally` block. -/
def preMid (tracks : List Track) : List TAction :=
  [TAction.updateProgress 10 ("Fetching source playlist tracks..."),
   TAction.fetchTracks,
   TAction.updateProgress 30 ("Searching for tracks on target platform...")]
  ++ matchLoopTrace (tracks.length : ℚ) tracks 0
  ++ [TAction.updateProgress 60 ("Creating target playlist..."),
      TAction.createPlaylist,
      TAction.updateProgress 80 ("Adding tracks to target playlist..."),
      TAction.addTracksCall]

/-- Modelled from the spec: the platform-specific insertion functions that
`addTracksToPlaylist` dispatches to (`addTracksToSpotifyPlaylist`,
`addTracksToApplePlaylist`, `addTracksToYouTubePlaylist`) are referenced by
`background.js` but absent from the repository.  Per the spec's insertion
phase, they partition the matched tracks, in original order, into
consecutive batches of `options.batchSize` (the last batch possibly
smaller), one `addTracks` call per batch. -/
def batchTracks {α : Type} (n : Nat) : List α → List (List α)
  | [] => []
  | x :: xs => (x :: xs).take n :: batchTracks n (xs.drop (n - 1))
termination_by l => l.length
decreasing_by
  simp only [List.length_cons, List.length_drop]
  omega

/-- Concrete source track fixtures. -/
def trackA : Track :=
  { name := "a", artists := [], album := "", position := 1 }

def trackB : Track :=
  { name := "b", artists := [], album := "", position := 2 }

def twoTracks : List Track := [trackA, trackB]

def optionsW : TransferOptions :=
  { conflictResolution := "skip", batchSize := 50, retryAttempts := 3 }

def playlistW : PlaylistRef :=
  { id := "pl1", name := "My Playlist", description := "d", trackCount := 2 }

/-- A well-formed transfer request (distinct platforms). -/
def transferDataW : TransferData :=
  { sourcePlaylist := playlistW
    sourcePlatform := "spotify"
    targetPlatform := "youtube"
    options := optionsW }

/-- A request the spec says must be rejected: identical source and target
platform and a zero-track source playlist. -/
def samePlatformData : TransferData :=
  { sourcePlaylist :=
      { id := "pl2", name := "Empty", description := "", trackCount := 0 }
    sourcePlatform := "spotify"
    targetPlatform := "spotify"
    options := optionsW }

/-- A state in which a job is Running. -/
def runningState : TransferState :=
  { isTransferring := true
    currentTransfer := some transferDataW
    progress := 42
    errors := []
    message := none }

def runningWorld : CWorld :=
  { state := runningState, histWrites := 0 }

def targetPlW : PlaylistRef :=
  { id := "tgt", name := "My Playlist", description := "d", trackCount := 0 }

/-- Oracles for a fully successful run in which the first track matches and
the second yields a null search result. -/
def oracleW : Oracles :=
  { fetchTracks := fun _ _ => Except.ok twoTracks
    searchTrack := fun t =>
      if t.position = 1 then Except.ok (some t) else Except.ok none
    createPlaylist := fun _ _ => Except.ok targetPlW
    addTracks := fun _ _ => Except.ok () }

theorem saveTransferHistory_eq_take {α : Type} (record : α) (history : List α) :
    saveTransferHistory record history = (record :: history).take 50 := by
  by_cases h : 50 < (record :: history).length
  · simp [saveTransferHistory, h]
  · simp only [saveTransferHistory, h, if_false]
    exact (List.take_of_length_le (by omega)).symm

theorem take_append_take {α : Type} (n : ℕ) (A B : List α) :
    (A ++ B.take n).take n = (A ++ B).take n := by
  rw [List.take_append_eq_append_take, List.take_append_eq_append_take,
    List.take_take]
  congr 1
  congr 1
  omega

theorem appendAll_eq_take {α : Type} (records : List α) (history : List α)
    (hh : history.length ≤ 50) :
    appendAll records history = (records.reverse ++ history).take 50 := by
  induction records generalizing history with
  | nil =>
    simp only [appendAll, List.foldl_nil, List.reverse_nil, List.nil_append]
    exact (List.take_of_length_le hh).symm
  | cons r rs ih =>
    have hlen : (saveTransferHistory r history).length ≤ 50 := by
      rw [saveTransferHistory_eq_take]
      simp
    calc appendAll (r :: rs) history
        = appendAll rs (saveTransferHistory r history) := rfl
      _ = (rs.reverse ++ saveTransferHistory r history).take 50 := ih _ hlen
      _ = (rs.reverse ++ (r :: history).take 50).take 50 := by
            rw [saveTransferHistory_eq_take]
      _ = (rs.reverse ++ (r :: history)).take 50 := take_append_take 50 _ _
      _ = ((r :: rs).reverse ++ history).take 50 := by simp

theorem retryGo_count_le {E A : Type} (op : Nat → Except E A) :
    ∀ (r attempt : Nat), (retryGo op attempt r).2 ≤ r := by
  intro r
  induction r with
  | zero => intro attempt; simp [retryGo]
  | succ r ih =>
    intro attempt
    simp only [retryGo]
    cases op attempt with
    | ok a => simp
    | error e =>
      by_cases hr : r = 0
      · simp [hr]
      · simpa [hr] using ih (attempt + 1)

theorem retryGo_all_fail {E A : Type} (op : Nat → Except E A)
    (errf : Nat → E) (hop : ∀ i, op i = Except.error (errf i)) :
    ∀ (r attempt : Nat),
      retryGo op attempt (r + 1) = (Except.error (errf (attempt + r)), r + 1) := by
  intro r
  induction r with
  | zero => intro attempt; simp [retryGo, hop]
  | succ r ih =>
    intro attempt
    have hstep : retryGo op attempt (r + 1 + 1) =
        (match op attempt with
         | Except.ok a => (Except.ok (some a), 1)
         | Except.error e =>
           if r + 1 = 0 then (Except.error e, 1)
           else
             let p := retryGo op (attempt + 1) (r + 1)
             (p.1, p.2 + 1)) := rfl
    rw [hstep, hop attempt]
    simp only [Nat.succ_ne_zero, if_false]
    rw [ih (attempt + 1)]
    simp [Nat.add_assoc, Nat.add_comm 1 r]

theorem searchLoopGo_results (srch : Track → SearchOutcome) (n : ℚ) :
    ∀ (ts : List Track) (i : Nat) (s : TransferState),
      (searchLoopGo srch n ts i s).2 = matchResults srch ts := by
  intro ts
  induction ts with
  | nil => intro i s; rfl
  | cons t ts ih =>
    intro i s
    simp only [searchLoopGo, matchResults, List.map_cons]
    rw [show matchResults srch ts = ts.map (fun t => mkMatchResult t (srch t)) from rfl]
      at ih
    simp [ih]

theorem searchTracksOnPlatform_results (srch : Track → SearchOutcome)
    (tracks : List Track) (s : TransferState) :
    (searchTracksOnPlatform srch tracks s).2 = matchResults srch tracks :=
  searchLoopGo_results srch _ tracks 0 s

theorem validTracks_matchResults (srch : Track → SearchOutcome) :
    ∀ tracks : List Track,
      (validTracks (matchResults srch tracks)).map MatchResult.original =
        tracks.filter (fun t => matchFound (srch t)) := by
  intro tracks
  induction tracks with
  | nil => rfl
  | cons t ts ih =>
    simp only [matchResults, List.map_cons] at *
    cases h : srch t with
    | ok r =>
      cases r with
      | none => simpa [validTracks, mkMatchResult, h, matchFound, List.filter_cons] using ih
      | some m => simpa [validTracks, mkMatchResult, h, matchFound, List.filter_cons] using ih
    | error e => simpa [validTracks, mkMatchResult, h, matchFound, List.filter_cons] using ih

theorem foundCount_le (srch : Track → SearchOutcome) (tracks : List Track) :
    foundCount srch tracks ≤ tracks.length := by
  calc foundCount srch tracks
      ≤ (matchResults srch tracks).length := List.length_filter_le _ _
    _ = tracks.length := by simp [matchResults]

theorem applyAll_append (l₁ l₂ : List TAction) (w : CWorld) :
    applyAll (l₁ ++ l₂) w = applyAll l₂ (applyAll l₁ w) := by
  simp [applyAll, List.foldl_append]

theorem applyAction_histWrites (a : TAction) (w : CWorld)
    (ha : a ≠ TAction.writeHistory) :
    (applyAction a w).histWrites = w.histWrites := by
  cases a <;> simp_all [applyAction]

theorem applyAll_histWrites (l : List TAction) (w : CWorld)
    (hl : ∀ a ∈ l, a ≠ TAction.writeHistory) :
    (applyAll l w).histWrites = w.histWrites := by
  induction l generalizing w with
  | nil => rfl
  | cons a l ih =>
    calc (applyAll (a :: l) w).histWrites
        = (applyAll l (applyAction a w)).histWrites := rfl
      _ = (applyAction a w).histWrites := ih _ (fun b hb => hl b (List.mem_cons_of_mem a hb))
      _ = w.histWrites := applyAction_histWrites a w (hl a (List.mem_cons_self a l))

theorem matchLoopTrace_no_writeHistory (n : ℚ) :
    ∀ (ts : List Track) (i : Nat) (a : TAction),
      a ∈ matchLoopTrace n ts i → a ≠ TAction.writeHistory := by
  intro ts
  induction ts with
  | nil => intro i a ha; simp [matchLoopTrace] at ha
  | cons t ts ih =>
    intro i a ha
    simp only [matchLoopTrace, List.mem_cons] at ha
    rcases ha with h | h | h
    · subst h; intro hcontra; cases hcontra
    · subst h; intro hcontra; cases hcontra
    · exact ih (i + 1) a h

theorem matchLoopTrace_countSearch (n : ℚ) :
    ∀ (ts : List Track) (i : Nat),
      countSearch (matchLoopTrace n ts i) = ts.length := by
  intro ts
  induction ts with
  | nil => intro i; rfl
  | cons t ts ih =>
    intro i
    simp only [matchLoopTrace, countSearch, List.countP_cons, List.length_cons]
    have := ih (i + 1)
    simp only [countSearch] at this
    simp [this]

theorem matchLoopTrace_length (n : ℚ) :
    ∀ (ts : List Track) (i : Nat),
      (matchLoopTrace n ts i).length = 2 * ts.length := by
  intro ts
  induction ts with
  | nil => intro i; rfl
  | cons t ts ih =>
    intro i
    simp only [matchLoopTrace, List.length_cons, ih (i + 1), List.length_cons]
    ring

theorem performTransferTrace_split (tracks : List Track) :
    performTransferTrace tracks =
      preMid tracks ++
        [TAction.writeHistory,
         TAction.updateProgress 100 ("Transfer completed successfully!"),
         TAction.clearTransferring] := by
  simp [performTransferTrace, preMid]

theorem preMid_length (tracks : List Track) :
    (preMid tracks).length = 2 * tracks.length + 7 := by
  simp [preMid, matchLoopTrace_length]

theorem preMid_no_writeHistory (tracks : List Track) :
    ∀ a ∈ preMid tracks, a ≠ TAction.writeHistory := by
  intro a ha hc
  subst hc
  simp only [preMid, List.mem_append, List.mem_cons, List.not_mem_nil,
    or_false, false_or, reduceCtorEq] at ha
  exact matchLoopTrace_no_writeHistory _ tracks 0 _ ha rfl

theorem countSearch_performTransferTrace (tracks : List Track) :
    countSearch (performTransferTrace tracks) = tracks.length := by
  have h := matchLoopTrace_countSearch (tracks.length : ℚ) tracks 0
  simp only [countSearch] at h ⊢
  simp [performTransferTrace, List.countP_append, h]

theorem applyAll_final3 (msg : String) (w : CWorld) :
    applyAll [TAction.writeHistory, TAction.updateProgress 100 msg,
      TAction.clearTransferring] w =
      { state :=
          { w.state with
              progress := 100
              message := some msg
              isTransferring := false }
        histWrites := w.histWrites + 1 } := rfl

theorem cancelWorld_histWrites (w : CWorld) :
    (cancelWorld w).histWrites = w.histWrites := rfl

theorem runWithCancelAt_final (tracks : List Track) (k : Nat) (w : CWorld)
    (hk : k ≤ 2 * tracks.length + 6) :
    (runWithCancelAt tracks k w).state.progress = 100 ∧
    (runWithCancelAt tracks k w).state.isTransferring = false ∧
    (runWithCancelAt tracks k w).histWrites = w.histWrites + 1 := by
  have hkle : k ≤ (preMid tracks).length := by rw [preMid_length]; omega
  have hdrop : (performTransferTrace tracks).drop k =
      (preMid tracks).drop k ++
        [TAction.writeHistory,
         TAction.updateProgress 100 ("Transfer completed successfully!"),
         TAction.clearTransferring] := by
    rw [performTransferTrace_split, List.drop_append_of_le_length hkle]
  have htake : (performTransferTrace tracks).take k = (preMid tracks).take k := by
    rw [performTransferTrace_split, List.take_append_of_le_length hkle]
  have hw1hist :
      (cancelWorld (applyAll ((performTransferTrace tracks).take k) w)).histWrites
        = w.histWrites := by
    rw [cancelWorld_histWrites, htake]
    exact applyAll_histWrites _ w
      (fun a ha => preMid_no_writeHistory tracks a (List.take_subset _ _ ha))
  have hw2hist :
      (applyAll ((preMid tracks).drop k)
        (cancelWorld (applyAll ((performTransferTrace tracks).take k) w))).histWrites
        = w.histWrites := by
    rw [applyAll_histWrites _ _
      (fun a ha => preMid_no_writeHistory tracks a (List.drop_subset _ _ ha))]
    exact hw1hist
  unfold runWithCancelAt
  rw [hdrop, applyAll_append, applyAll_final3]
  refine ⟨rfl, rfl, ?_⟩
  simp [hw2hist]

theorem batchTracks_nil {α : Type} (n : Nat) :
    batchTracks n ([] : List α) = [] := by
  rw [batchTracks]

theorem batchTracks_cons {α : Type} (n : Nat) (x : α) (xs : List α) :
    batchTracks n (x :: xs) = (x :: xs).take n :: batchTracks n (xs.drop (n - 1)) := by
  rw [batchTracks]

theorem batchTracks_flatten {α : Type} (n : Nat) (hn : 0 < n) :
    ∀ l : List α, (batchTracks n l).flatten = l := by
  intro l
  induction l using batchTracks.induct n with
  | case1 => simp [batchTracks_nil]
  | case2 x xs ih =>
    obtain ⟨m, rfl⟩ : ∃ m, n = m + 1 := ⟨n - 1, by omega⟩
    simp only [Nat.add_sub_cancel] at ih
    rw [batchTracks_cons]
    simp only [Nat.add_sub_cancel, List.flatten_cons, List.take_succ_cons, ih,
      List.cons_append, List.take_append_drop]

theorem batchTracks_sizes {α : Type} (n : Nat) (hn : 0 < n) :
    ∀ l : List α, ∀ b ∈ batchTracks n l, 0 < b.length ∧ b.length ≤ n := by
  intro l
  induction l using batchTracks.induct n with
  | case1 => simp [batchTracks_nil]
  | case2 x xs ih =>
    intro b hb
    rw [batchTracks_cons, List.mem_cons] at hb
    rcases hb with hb | hb
    · subst hb
      constructor
      · simp [List.length_take]; omega
      · simp [List.length_take]
    · exact ih b hb

theorem batchTracks_dropLast_sizes {α : Type} (n : Nat) (hn : 0 < n) :
    ∀ l : List α, ∀ b ∈ (batchTracks n l).dropLast, b.length = n := by
  intro l
  induction l using batchTracks.induct n with
  | case1 => simp [batchTracks_nil]
  | case2 x xs ih =>
    intro b hb
    rw [batchTracks_cons] at hb
    cases hrest : batchTracks n (xs.drop (n - 1)) with
    | nil => rw [hrest] at hb; simp at hb
    | cons r rs =>
      rw [hrest, List.dropLast_cons₂, List.mem_cons] at hb
      rcases hb with hb | hb
      · subst hb
        have hne : xs.drop (n - 1) ≠ [] := by
          intro hnil
          rw [hnil, batchTracks_nil] at hrest
          exact List.cons_ne_nil r rs hrest.symm
        have hlen : n - 1 < xs.length := by
          by_contra hcon
          exact hne (List.drop_eq_nil_of_le (by omega))
        simp [List.length_take]
        omega
      · rw [← hrest] at hb
        exact ih b hb

/-- C1: the spec claims `StartTransfer` while a job is Running yields the
conflict error and leaves the running job's state exactly as it was.  The
code violates the second half: evaluated at a Running state, the rejected
call does answer with the conflict error, but the `catch` block then runs
`transferState.isTransferring = false`, mutating the running job's state
(and disarming the single-running-job guard for subsequent calls). -/
theorem handleStartTransfer_conflict_mutates_state :
    runningState.isTransferring = true ∧
    handleStartTransfer samePlatformData runningState =
      ({ runningState with isTransferring := false },
        Response.error ("Transfer already in progress"), false) ∧
    (handleStartTransfer samePlatformData runningState).1 ≠ runningState :=
  ⟨rfl, rfl, by decide⟩

/-- C2, counterexample: a request whose source and target platform are both
`spotify` and whose source playlist has zero tracks is accepted from the
idle state — the response is success, the transfer state is initialised
and `performTransfer` is entered, so no `ValidationError` occurs and a job
is created, contrary to the claim. -/
theorem handleStartTransfer_no_validation_counterexample :
    samePlatformData.sourcePlatform = samePlatformData.targetPlatform ∧
    samePlatformData.sourcePlaylist.trackCount = 0 ∧
    handleStartTransfer samePlatformData initialTransferState =
      ({ initialTransferState with
          isTransferring := true
          currentTransfer := some samePlatformData
          progress := 0
          errors := [] },
        Response.success ("Transfer started"), true) :=
  ⟨rfl, rfl, rfl⟩

/-- C2 (amended): `handleStartTransfer` performs no validation of the
request.  Whenever no job is running, every request — including one with
`sourcePlatform == targetPlatform` or a zero-track source playlist — is
accepted: the transfer state is initialised, the success response is sent
and `performTransfer` is entered.  No `ValidationError` path exists. -/
theorem handleStartTransfer_accepts_any_request (d : TransferData)
    (s : TransferState) (h : s.isTransferring = false) :
    handleStartTransfer d s =
      ({ s with
          isTransferring := true
          currentTransfer := some d
          progress := 0
          errors := [] },
        Response.success ("Transfer started"), true) := by
  simp [handleStartTransfer, h]

theorem handleStartTransfer_accepts_any_request_witness :
    handleStartTransfer transferDataW initialTransferState =
      ({ initialTransferState with
          isTransferring := true
          currentTransfer := some transferDataW
          progress := 0
          errors := [] },
        Response.success ("Transfer started"), true) :=
  handleStartTransfer_accepts_any_request transferDataW initialTransferState rfl

/-- C3, counterexample: with two source tracks and the `cancelTransfer`
message handled after step 5 (just after the first matching iteration,
when the run's progress is 30), the second matching iteration still begins
(`search 1` is among the steps executed after cancellation), the run
continues to completion writing its history record, and the final progress
is 100 — not `≤ 30`, and not a `Cancelled` terminal state. -/
theorem cancelTransfer_counterexample :
    TAction.search 1 ∈ (performTransferTrace twoTracks).drop 5 ∧
    (applyAll ((performTransferTrace twoTracks).take 5) runningWorld).state.progress = 30 ∧
    (runWithCancelAt twoTracks 5 runningWorld).state.progress = 100 ∧
    (runWithCancelAt twoTracks 5 runningWorld).histWrites = 1 := by
  refine ⟨?_, ?_, ?_, ?_⟩ <;>
    norm_num [performTransferTrace, matchLoopTrace, twoTracks, trackA, trackB,
      runWithCancelAt, cancelWorld, handleCancelTransfer, applyAll, applyAction,
      updProg, finallyClear, runningWorld, runningState, countSearch]

/-- C3 (amended): `handleCancelTransfer` only resets the published fields
(`isTransferring := false`, `currentTransfer := none`, `progress := 0`)
and replies success; no cancellation flag is consulted by the running
transfer.  Whatever step `k` of the run the cancellation lands on (up to
the insertion call), every one of the `tracks.length` matching iterations
of the trace still occurs, the run still writes exactly one history record
and finishes with progress 100; no `Cancelled` terminal state exists. -/
theorem cancelTransfer_does_not_stop_run (s₀ : TransferState)
    (tracks : List Track) (k : Nat) (w : CWorld)
    (hk : k ≤ 2 * tracks.length + 6) :
    handleCancelTransfer s₀ =
      ({ s₀ with isTransferring := false, currentTransfer := none, progress := 0 },
        Response.success ("Transfer cancelled")) ∧
    countSearch (performTransferTrace tracks) = tracks.length ∧
    (runWithCancelAt tracks k w).state.progress = 100 ∧
    (runWithCancelAt tracks k w).state.isTransferring = false ∧
    (runWithCancelAt tracks k w).histWrites = w.histWrites + 1 :=
  ⟨rfl, countSearch_performTransferTrace tracks,
    (runWithCancelAt_final tracks k w hk).1,
    (runWithCancelAt_final tracks k w hk).2.1,
    (runWithCancelAt_final tracks k w hk).2.2⟩

theorem cancelTransfer_does_not_stop_run_witness :
    handleCancelTransfer runningState =
      ({ runningState with
          isTransferring := false
          currentTransfer := none
          progress := 0 },
        Response.success ("Transfer cancelled")) ∧
    countSearch (performTransferTrace twoTracks) = twoTracks.length ∧
    (runWithCancelAt twoTracks 5 runningWorld).state.progress = 100 ∧
    (runWithCancelAt twoTracks 5 runningWorld).state.isTransferring = false ∧
    (runWithCancelAt twoTracks 5 runningWorld).histWrites = runningWorld.histWrites + 1 :=
  cancelTransfer_does_not_stop_run runningState twoTracks 5 runningWorld (by decide)

/-- C4, counterexample: `retryOperation` classifies no errors.  With an
operation failing with a (conceptually non-transient) `AuthError` on every
attempt and `maxRetries = 3`, the operation is invoked 3 times — not
exactly once as the claim requires for a non-transient first-attempt
failure.  And with `maxRetries = 0`, the operation is never invoked at all
and `retryOperation` returns `undefined` — there is no first failure to be
terminal. -/
theorem retryOperation_counterexample :
    retryOperation (fun _ => (Except.error ("AuthError") : Except String Nat)) 3 =
      (Except.error ("AuthError"), 3) ∧
    (3 : Nat) ≠ 1 ∧
    retryOperation (fun _ => (Except.error ("boom") : Except String Nat)) 0 =
      (Except.ok none, 0) :=
  ⟨rfl, by decide, rfl⟩

/-- C4 (amended): `retryOperation` invokes the wrapped operation at most
`maxRetries` times; when every attempt fails — there is no transient /
non-transient distinction, every error is retried — it runs all
`maxRetries` attempts and surfaces the final attempt's error verbatim; and
with `maxRetries = 0` the operation is never invoked and the call returns
`undefined` rather than a failure. -/
theorem retryOperation_retry_policy :
    (∀ (E A : Type) (op : Nat → Except E A) (N : Nat),
      (retryOperation op N).2 ≤ N) ∧
    (∀ (E A : Type) (op : Nat → Except E A) (errf : Nat → E) (N : Nat),
      1 ≤ N → (∀ i, op i = Except.error (errf i)) →
      retryOperation op N = (Except.error (errf N), N)) ∧
    (∀ (E A : Type) (op : Nat → Except E A),
      retryOperation op 0 = (Except.ok none, 0)) := by
  refine ⟨?_, ?_, ?_⟩
  · intro E A op N
    exact retryGo_count_le op N 1
  · intro E A op errf N hN hop
    obtain ⟨M, rfl⟩ : ∃ M, N = M + 1 := ⟨N - 1, by omega⟩
    unfold retryOperation
    rw [retryGo_all_fail op errf hop M 1, Nat.add_comm 1 M]
  · intro E A op
    rfl

theorem retryOperation_retry_policy_witness :
    (retryOperation (fun _ => (Except.error ("AuthError") : Except String Nat)) 2).2 ≤ 2 ∧
    retryOperation (fun _ => (Except.error ("AuthError") : Except String Nat)) 2 =
      (Except.error ("AuthError"), 2) ∧
    retryOperation (fun _ => (Except.error ("AuthError") : Except String Nat)) 0 =
      (Except.ok none, 0) :=
  ⟨retryOperation_retry_policy.1 String Nat (fun _ => Except.error ("AuthError")) 2,
   retryOperation_retry_policy.2.1 String Nat (fun _ => Except.error ("AuthError"))
     (fun _ => "AuthError") 2 (by decide) (fun _ => rfl),
   retryOperation_retry_policy.2.2 String Nat (fun _ => Except.error ("AuthError"))⟩

/-- C5: `saveTransferHistory` inserts the new record at the front; any
sequence of appends (at least one) leaves at most 50 records; and after
appending a record `x` followed by 50 further (distinct-from-`x`) records,
`x` — the oldest — has been evicted while the most recently appended
record is at the head of the stored list. -/
theorem saveTransferHistory_bounded :
    (∀ (α : Type) (r : α) (h : List α),
      (saveTransferHistory r h).head? = some r) ∧
    (∀ (α : Type) (rs : List α) (r : α) (h : List α),
      (appendAll (r :: rs) h).length ≤ 50) ∧
    (∀ (α : Type) (x : α) (rs : List α) (h : List α),
      h.length ≤ 50 → rs.length = 50 → x ∉ rs →
      appendAll (x :: rs) h = rs.reverse ∧
      x ∉ appendAll (x :: rs) h ∧
      (appendAll (x :: rs) h).head? = rs.getLast?) := by
  refine ⟨?_, ?_, ?_⟩
  · intro α r h
    rw [saveTransferHistory_eq_take]
    rfl
  · intro α rs r h
    have h1 : (saveTransferHistory r h).length ≤ 50 := by
      rw [saveTransferHistory_eq_take]
      simp
    have h2 : appendAll (r :: rs) h = appendAll rs (saveTransferHistory r h) := rfl
    rw [h2, appendAll_eq_take rs _ h1, List.length_take]
    exact Nat.min_le_left _ _
  · intro α x rs h hh hlen hmem
    have h50 : rs.reverse.length = 50 := by simp [hlen]
    have hform : appendAll (x :: rs) h = rs.reverse := by
      rw [appendAll_eq_take _ _ hh]
      have hsw : (x :: rs).reverse ++ h = rs.reverse ++ (x :: h) := by simp
      rw [hsw, List.take_append_eq_append_take,
        List.take_of_length_le (le_of_eq h50), h50]
      simp
    refine ⟨hform, ?_, ?_⟩
    · rw [hform, List.mem_reverse]
      exact hmem
    · rw [hform, List.head?_reverse]

theorem saveTransferHistory_bounded_witness :
    (saveTransferHistory (7 : Nat) []).head? = some 7 ∧
    (appendAll ((7 : Nat) :: []) []).length ≤ 50 ∧
    (appendAll ((0 : Nat) :: List.range' 1 50) [] = (List.range' 1 50).reverse ∧
      (0 : Nat) ∉ appendAll ((0 : Nat) :: List.range' 1 50) [] ∧
      (appendAll ((0 : Nat) :: List.range' 1 50) []).head? =
        (List.range' 1 50).getLast?) :=
  ⟨saveTransferHistory_bounded.1 Nat 7 [],
   saveTransferHistory_bounded.2.1 Nat [] 7 [],
   saveTransferHistory_bounded.2.2 Nat 0 (List.range' 1 50) []
     (by decide) (by decide) (by decide)⟩

/-- C6: the matching loop records one result per source track in original
order (a failed search never aborts the loop), and the list
`addTracksToPlaylist` hands to the platform insertion call is exactly the
found results, whose originals form the subsequence of the source tracks
whose search succeeded with a match — dropped entries, never reordered. -/
theorem searchTracks_preserves_order (srch : Track → SearchOutcome)
    (tracks : List Track) (s : TransferState)
    (adder : String → List MatchResult → Except String Unit) (pid : String) :
    (searchTracksOnPlatform srch tracks s).2.length = tracks.length ∧
    addTracksToPlaylist adder pid (searchTracksOnPlatform srch tracks s).2 =
      adder pid (validTracks (searchTracksOnPlatform srch tracks s).2) ∧
    (validTracks (searchTracksOnPlatform srch tracks s).2).map MatchResult.original =
      tracks.filter (fun t => matchFound (srch t)) ∧
    List.Sublist
      ((validTracks (searchTracksOnPlatform srch tracks s).2).map MatchResult.original)
      tracks := by
  have hres := searchTracksOnPlatform_results srch tracks s
  refine ⟨?_, rfl, ?_, ?_⟩
  · rw [hres]
    simp [matchResults]
  · rw [hres]
    exact validTracks_matchResults srch tracks
  · rw [hres, validTracks_matchResults srch tracks]
    exact List.filter_sublist _

/-- C7: a `performTransfer` run in which every network call succeeds writes
exactly one `TransferRecord`, whose `totalTracks` is the number of fetched
source tracks and whose `transferredTracks` is the number of found
matches, never exceeding `totalTracks`. -/
theorem performTransfer_writes_one_record (o : Oracles) (d : TransferData)
    (now : Nat) (s : TransferState) (hist : List TransferRecord)
    (tracks : List Track) (pl : PlaylistRef)
    (hf : o.fetchTracks d.sourcePlatform d.sourcePlaylist.id = Except.ok tracks)
    (hc : o.createPlaylist d.sourcePlaylist.name d.sourcePlaylist.description =
      Except.ok pl)
    (ha : ∀ pid l, o.addTracks pid l = Except.ok ()) :
    (performTransfer o d now s hist).2 =
      saveTransferHistory
        { sourcePlaylist := d.sourcePlaylist
          sourcePlatform := d.sourcePlatform
          targetPlatform := d.targetPlatform
          targetPlaylist := pl
          transferredTracks := foundCount o.searchTrack tracks
          totalTracks := tracks.length
          timestamp := now } hist ∧
    foundCount o.searchTrack tracks ≤ tracks.length := by
  refine ⟨?_, foundCount_le o.searchTrack tracks⟩
  simp only [performTransfer, hf, hc, addTracksToPlaylist, ha]
  rw [searchTracksOnPlatform_results]
  rfl

theorem performTransfer_writes_one_record_witness :
    (performTransfer oracleW transferDataW 99 initialTransferState []).2 =
      saveTransferHistory
        { sourcePlaylist := transferDataW.sourcePlaylist
          sourcePlatform := transferDataW.sourcePlatform
          targetPlatform := transferDataW.targetPlatform
          targetPlaylist := targetPlW
          transferredTracks := foundCount oracleW.searchTrack twoTracks
          totalTracks := twoTracks.length
          timestamp := 99 } [] ∧
    foundCount oracleW.searchTrack twoTracks ≤ twoTracks.length :=
  performTransfer_writes_one_record oracleW transferDataW 99 initialTransferState []
    twoTracks targetPlW rfl rfl (fun _ _ => rfl)

/-- C8: per the spec (the per-platform insertion implementations are absent
from the repository — see `batchTracks`), insertion partitions the matched
tracks, in original order, into consecutive batches of `batchSize`: the
batches concatenate back to the original list, every batch is non-empty
and no larger than `batchSize`, every batch except possibly the last is
exactly `batchSize`; in particular 5 tracks with `batchSize = 2` yield the
3 batches `[2, 2, 1]` in original order. -/
theorem insertionBatching_spec :
    (∀ (α : Type) (n : Nat), 0 < n → ∀ l : List α,
      (batchTracks n l).flatten = l ∧
      (∀ b ∈ batchTracks n l, 0 < b.length ∧ b.length ≤ n) ∧
      (∀ b ∈ (batchTracks n l).dropLast, b.length = n)) ∧
    batchTracks 2 [(1 : Nat), 2, 3, 4, 5] = [[1, 2], [3, 4], [5]] := by
  constructor
  · intro α n hn l
    exact ⟨batchTracks_flatten n hn l, batchTracks_sizes n hn l,
      batchTracks_dropLast_sizes n hn l⟩
  · simp [batchTracks_cons, batchTracks_nil]

theorem insertionBatching_spec_witness :
    (batchTracks 2 [(1 : Nat), 2, 3, 4, 5]).flatten = [1, 2, 3, 4, 5] ∧
    (∀ b ∈ batchTracks 2 [(1 : Nat), 2, 3, 4, 5], 0 < b.length ∧ b.length ≤ 2) ∧
    (∀ b ∈ (batchTracks 2 [(1 : Nat), 2, 3, 4, 5]).dropLast, b.length = 2) :=
  insertionBatching_spec.1 Nat 2 (by decide) [1, 2, 3, 4, 5]

/-- C9: a successful `searchTrack` call returning null records
`found = false` with no error field (not a failure); the error field is
present exactly when the search itself threw; and the match field holds a
track exactly when `found` is true. -/
theorem matchResult_field_semantics (srch : Track → SearchOutcome) (t : Track) :
    (srch t = Except.ok none →
      mkMatchResult t (srch t) =
        { original := t, found := false, match' := none, error := none }) ∧
    ((mkMatchResult t (srch t)).error.isSome ↔ ∃ e, srch t = Except.error e) ∧
    ((mkMatchResult t (srch t)).match'.isSome = (mkMatchResult t (srch t)).found) := by
  cases h : srch t with
  | ok r =>
    cases r with
    | none => simp [mkMatchResult]
    | some m => simp [mkMatchResult]
  | error e => simp [mkMatchResult]

theorem matchResult_field_semantics_witness :
    mkMatchResult trackA (Except.ok none) =
      { original := trackA, found := false, match' := none, error := none } ∧
    ((mkMatchResult trackA (Except.ok none)).error.isSome ↔
      ∃ e, (Except.ok none : SearchOutcome) = Except.error e) ∧
    ((mkMatchResult trackA (Except.ok none)).match'.isSome =
      (mkMatchResult trackA (Except.ok none)).found) :=
  ⟨(matchResult_field_semantics (fun _ => Except.ok none) trackA).1 rfl,
   (matchResult_field_semantics (fun _ => Except.ok none) trackA).2.1,
   (matchResult_field_semantics (fun _ => Except.ok none) trackA).2.2⟩

/-- C10: whatever the oracle outcomes — success, or a throw in the fetch,
creation or insertion phase — `performTransfer` ends with
`transferState.isTransferring = false`, because the assignment sits in the
function's `finally` block. -/
theorem performTransfer_always_clears_flag (o : Oracles) (d : TransferData)
    (now : Nat) (s : TransferState) (hist : List TransferRecord) :
    (performTransfer o d now s hist).1.isTransferring = false := by
  simp only [performTransfer]
  repeat' split
  all_goals rfl
